import Mathlib

/-!
Verification development for the mangl man-page viewer (src/main.c).

The definitions below are a shallow embedding of the document/session core:
scroll clamping (main.c:224, 1881-1896), viewport scroll-into-view
(main.c:1914-1930), the link resolver (main.c:952-1057), the page-local
substring search (main.c:1059-1173), the global ranked search
(main.c:1537-1677) and the navigation stack (main.c:2982-3048).

C `int` values are modelled as `Int` (no arithmetic in the modelled paths
comes near 32-bit overflow for the inputs considered); C strings are
`List Char`; the fixed-size result arrays are lists together with the
capacity constants of the source (100 for both `matches` and `searches`).
Font-dependent geometry (character width, line advance, line height,
document margin, window height) is passed as explicit parameters; in the
program they come from `get_character_width`, `get_line_advance`,
`get_line_height`, `get_dimension(DIM_DOCUMENT_MARGIN)` and
`window_height` (defaults with the builtin font: 7, 14, 14, 29).
-/

namespace Mangl

/-- A rectangle in document coordinates (`recti`, main.c:100-105). -/
structure Recti where
  x : Int
  y : Int
  x2 : Int
  y2 : Int
deriving DecidableEq, Repr

/-- `clamp` (main.c:224-229): max bound checked first, then min bound. -/
def clamp (val mn mx : Int) : Int :=
  if val > mx then mx
  else if val < mn then mn
  else val

/-- `document_height` (main.c:947-950):
`n_lines * get_line_advance() + 2 * get_dimension(DIM_DOCUMENT_MARGIN)`. -/
def document_height (line_advance margin n_lines : Int) : Int :=
  n_lines * line_advance + 2 * margin

/-- `clamp_scroll_position` (main.c:1881-1885): clamp into
`[0, doc_height - window_height > 0 ? doc_height - window_height : 0]`. -/
def clamp_scroll_position (doc_height window_height v : Int) : Int :=
  clamp v 0 (if doc_height - window_height > 0 then doc_height - window_height else 0)

/-- `set_scroll_position` (main.c:1887-1896): the value stored into
`page->scroll_position` (when the clamped value equals the current one the
store is skipped, which leaves the same stored value; the redisplay side
effect is not modelled). -/
def set_scroll_position (doc_height window_height v : Int) : Int :=
  clamp_scroll_position doc_height window_height v

/-- `to_document_coordinates` (main.c:1903-1912): shift a rectangle by the
document margin. -/
def to_document_coordinates (margin : Int) (r : Recti) : Recti :=
  { x := r.x + margin, y := r.y + margin, x2 := r.x2 + margin, y2 := r.y2 + margin }

/-- `scroll_in_view` (main.c:1914-1930): the new `page->scroll_position`.
The margin is three line advances; the first two branches clamp, the final
branch stores the preferred position as-is. -/
def scroll_in_view (doc_height window_height line_advance : Int)
    (r : Recti) (prefered_scroll_position : Int) : Int :=
  let scroll_offset := 3 * line_advance
  if r.y - scroll_offset < prefered_scroll_position then
    clamp_scroll_position doc_height window_height (r.y - scroll_offset)
  else if r.y2 + scroll_offset > prefered_scroll_position + window_height then
    clamp_scroll_position doc_height window_height (r.y2 - window_height + scroll_offset)
  else
    prefered_scroll_position

/-! ### Character helpers -/

/-- `isupper` on 7-bit ASCII, as used by `update_search` (main.c:1644). -/
def isupper (c : Char) : Bool :=
  decide ('A' ≤ c ∧ c ≤ 'Z')

/-- ASCII `tolower`, used when building `manpage_names_lower`
(main.c:2798-2801) and inside `strncasecmp`. -/
def tolower (c : Char) : Char :=
  if 'A' ≤ c ∧ c ≤ 'Z' then Char.ofNat (c.toNat + 32) else c

/-- `contains_uppercase` (main.c:1059-1070): scans for a character in
`'A'..'Z'`. -/
def contains_uppercase (s : List Char) : Bool :=
  s.any (fun c => decide ('A' ≤ c ∧ c ≤ 'Z'))

/-! ### Global ranked search (main.c:1537-1677) -/

/-- `find_string` (main.c:1537-1559): first index at which `search_term`
occurs in `text`, or `-1`.  The source's loop bound is the strict
`i < text_len - search_len` (main.c:1542), so start positions
`≥ text_len - search_len` are never tested; `Nat` subtraction in
`List.range (text_len - search_len)` reproduces the empty loop for
`search_len ≥ text_len` exactly as the signed C comparison does.  The
inner loop compares `search_term[j]` with `text[i + j]` for
`j < search_len`, which for in-range `i` is the segment equality below. -/
def find_string (search_term text : List Char) : Int :=
  let search_len := search_term.length
  let text_len := text.length
  match (List.range (text_len - search_len)).find?
      (fun i => decide ((text.drop i).take search_len = search_term)) with
  | some i => (i : Int)
  | none => -1

/-- `compar_match_rev` (main.c:1561-1564) on `(idx, goodness)` entries:
`b.goodness - a.goodness` (descending order by goodness). -/
def compar_match_rev (a b : Nat × Int) : Int :=
  b.2 - a.2

/-- The `while (end > start + 1)` loop of `binary_search_first`
(main.c:1586-1603), returning the final value of `end`.  `cmp i` stands
for `compar(key, &data[i * size])`.  The `fuel` argument is purely a
termination device: every iteration strictly shrinks `e - start`, so any
fuel `≥ e - start` computes the exact exit value of the C loop (callers
pass `nmemb`). -/
def bs_loop (cmp : Nat → Int) : Nat → Nat → Nat → Nat
  | 0, _, e => e
  | fuel + 1, start, e =>
    if e > start + 1 then
      let mid := (e + start) / 2
      if cmp mid ≤ 0 then bs_loop cmp fuel start mid
      else bs_loop cmp fuel mid e
    else e

/-- `binary_search_first` (main.c:1566-1604): first insertion index for a
key against `nmemb` stored elements, assuming `cmp` is non-increasing. -/
def binary_search_first (cmp : Nat → Int) (nmemb : Nat) : Nat :=
  if nmemb = 0 then 0
  else
    let c_start := cmp 0
    let c_end := cmp (nmemb - 1)
    if c_start ≤ 0 then 0
    else if c_end > 0 then nmemb
    else bs_loop cmp nmemb 0 (nmemb - 1)

/-- `insert_array` (main.c:1606-1622) on the live prefix of the array:
shift the elements from `index` one slot up (the slot `nmemb - 1` falls
off) and place `key` at `index`. -/
def insert_array {α : Type} (key : α) (index : Nat) (data : List α) (nmemb : Nat) : List α :=
  if index ≥ nmemb then data
  else (data.take index ++ key :: data.drop index).take nmemb

/-- The per-candidate insertion step of `update_search`
(main.c:1663-1673): find the insertion point among the `matches_count`
live entries, insert if it falls inside the 100-slot `matches` array
(main.c:182), and bump `matches_count` if below capacity (on the list
model the final `take 100` covers both the eviction of the last slot and
the count bump). -/
def matches_insert (ms : List (Nat × Int)) (c : Nat × Int) : List (Nat × Int) :=
  let index := binary_search_first (fun j => compar_match_rev c (ms.getD j (0, 0))) ms.length
  if index < 100 then insert_array c index ms 100
  else ms

/-- `manpage_names_lower` as built at startup (main.c:2798-2802): the
catalog keys mapped through ASCII `tolower`. -/
def manpage_names_lower (manpage_names : List (List Char)) : List (List Char) :=
  manpage_names.map (List.map tolower)

/-- The global-search result state: the live `matches` entries (pairs of
catalog index and goodness), `results_view_offset` and
`results_selected_index` (main.c:175-184). -/
structure GlobalSearch where
  matches_arr : List (Nat × Int)
  results_view_offset : Nat
  results_selected_index : Nat
deriving DecidableEq, Repr

/-- `search_uppercase_characters` of `update_search` (main.c:1640-1649). -/
def search_uppercase (search_term : List Char) : Bool :=
  search_term.any isupper

/-- `update_search` (main.c:1624-1677).  Resets the matches, the view
offset and the selection; on a non-empty term scans either the as-is or
the lowercased catalog names and feeds every hit through the ranked
insertion.  The goodness is
`-position * 100 - (strlen(name) - search_term_len)` (main.c:1661); at
any hit `strlen(name) > search_term_len` because of the strict scan
bound, so the C `size_t`/`int` mixture equals the signed difference used
here. -/
def update_search (search_term : List Char) (manpage_names : List (List Char)) : GlobalSearch :=
  if search_term.length = 0 then
    { matches_arr := [], results_view_offset := 0, results_selected_index := 0 }
  else
    let chosen := if search_uppercase search_term then manpage_names
                  else manpage_names_lower manpage_names
    let ms := chosen.enum.foldl (fun ms p =>
      let position := find_string search_term p.2
      if position ≥ 0 then
        let goodness := -position * 100 - ((p.2.length : Int) - (search_term.length : Int))
        matches_insert ms (p.1, goodness)
      else ms) []
    { matches_arr := ms, results_view_offset := 0, results_selected_index := 0 }

/-! ### Line flattening (main.c:961-983 and 1094-1122) -/

/-- The backspace character, `'\b'` in C (code point 8). -/
def backspace : Char :=
  Char.ofNat 8

/-- One step of the backspace-collapsing copy into the `line[2048]`
buffer: a character is consumed only while `pos < 2047`; a backspace
decrements `pos` when positive (dropping the last kept character), any
other character is appended. -/
def flatten_step (buf : List Char) (c : Char) : List Char :=
  if buf.length < 2047 then
    if c = backspace then buf.dropLast else buf ++ [c]
  else buf

/-- Flattening of a single span buffer (`find_links` resets `pos` per
span, main.c:965). -/
def flatten_span (buffer : List Char) : List Char :=
  buffer.foldl flatten_step []

/-- Flattening of a whole span chain into one line buffer
(`update_page_search` keeps `pos` across the chain, main.c:1095-1122;
spans with zero length contribute nothing). -/
def flatten_line (spans : List (List Char)) : List Char :=
  spans.flatten.foldl flatten_step []

/-! ### Page-local search (main.c:1072-1173) -/

/-- The match test of `update_page_search` at byte offset `p`
(main.c:1130-1131):
`(ignore_case && strncasecmp(str, search_string, len) == 0) ||
 strncmp(str, search_string, len) == 0`.  `strncmp`/`strncasecmp`
comparing `len` characters of a NUL-terminated suffix against the
NUL-free term succeed exactly when `len` characters remain and they are
(caselessly) equal to the term. -/
def page_match_here (ignore_case : Bool) (term line : List Char) (p : Nat) : Bool :=
  let seg := (line.drop p).take term.length
  (ignore_case && decide (seg.map tolower = term.map tolower)) || decide (seg = term)

/-- The left-to-right scan of one flattened line (main.c:1126-1163): on a
match record the offset and jump past the matched length (non-overlapping
matches), otherwise advance one byte.  `fuel` is a termination device;
each step advances `p` (the term is non-empty on every reachable call
since `update_page_search` returns early on an empty query), so
`line.length + 1` fuel runs the loop to completion. -/
def scan_line (ignore_case : Bool) (term line : List Char) : Nat → Nat → List Nat
  | 0, _ => []
  | fuel + 1, p =>
    if p < line.length then
      if page_match_here ignore_case term line p then
        p :: scan_line ignore_case term line fuel (p + term.length)
      else
        scan_line ignore_case term line fuel (p + 1)
    else []

/-- All match offsets of one flattened line. -/
def scan_line_matches (ignore_case : Bool) (term line : List Char) : List Nat :=
  scan_line ignore_case term line (line.length + 1) 0

/-- The page-local search result: the stored match rectangles,
`search_num` and `search_index` (struct manpage, main.c:586-588). -/
structure PageSearch where
  searches : List Recti
  search_num : Nat
  search_index : Nat
deriving DecidableEq, Repr

/-- The in-flight state of the `update_page_search` scan: the stored
rectangles, the counters, the `search_index_set` flag (main.c:1076) and
whether the capacity early-return has fired. -/
structure PageScanState where
  searches : List Recti
  search_num : Nat
  search_index : Nat
  index_set : Bool
  stopped : Bool
deriving DecidableEq, Repr

/-- Processing of one match `(line_index, byte_offset)` by
`update_page_search` (main.c:1133-1158): store the rectangle, mark the
first match at or below the saved start position as current, bump the
count, and stop at the 100-slot capacity of `searches` (main.c:586),
resetting the index to 0 if it was never set (main.c:1150-1155). -/
def page_search_step (char_width line_advance line_height margin : Int)
    (term_len : Nat) (search_start_scroll_position : Int)
    (st : PageScanState) (m : Nat × Nat) : PageScanState :=
  if st.stopped then st
  else
    let r : Recti :=
      { x := (m.2 : Int) * char_width,
        y := (m.1 : Int) * line_advance,
        x2 := (m.2 : Int) * char_width + (term_len : Int) * char_width,
        y2 := (m.1 : Int) * line_advance + line_height }
    let cond := decide (r.y + margin ≥ search_start_scroll_position)
    let idx1 := if cond && !st.index_set then st.search_num else st.search_index
    let set1 := st.index_set || cond
    let num1 := st.search_num + 1
    let stopped1 := decide (num1 ≥ 100)
    let idx2 := if stopped1 && !set1 then 0 else idx1
    { searches := st.searches ++ [r], search_num := num1, search_index := idx2,
      index_set := set1, stopped := stopped1 }

/-- The stream of matches `(line_index, byte_offset)` in scan order: line
by line, left to right within a line. -/
def page_all_matches (ignore_case : Bool) (term : List Char)
    (lines : List (List (List Char))) : List (Nat × Nat) :=
  (lines.enum.map (fun p =>
    (scan_line_matches ignore_case term (flatten_line p.2)).map (fun q => (p.1, q)))).flatten

/-- `update_page_search` (main.c:1072-1173).  Empty query: counters reset,
no line is scanned.  Otherwise the case policy is chosen from
`contains_uppercase` and the matches are recorded in scan order.  The C
code interleaves scanning with recording and returns early at the
capacity; scanning does not depend on the recording state, so
precomputing the match stream and folding with the `stopped` flag stores
the same prefix and computes the same index. -/
def update_page_search (char_width line_advance line_height margin : Int)
    (search_string : List Char) (search_start_scroll_position : Int)
    (lines : List (List (List Char))) : PageSearch :=
  if search_string.length = 0 then
    { searches := [], search_num := 0, search_index := 0 }
  else
    let ignore_case := !contains_uppercase search_string
    let final := (page_all_matches ignore_case search_string lines).foldl
      (page_search_step char_width line_advance line_height margin
        search_string.length search_start_scroll_position)
      { searches := [], search_num := 0, search_index := 0, index_set := false, stopped := false }
    { searches := final.searches, search_num := final.search_num,
      search_index := final.search_index }

/-! ### Link resolver (main.c:952-1057) -/

/-- A resolved cross-reference (`link_t`). -/
structure Link where
  document_rectangle : Recti
  link : List Char
  pwd : List Char
  highlight : Bool
deriving DecidableEq, Repr

/-- Lookup in the `manpage_database` / `manpage_database_pwd` hashmaps,
modelled as association lists with unique keys (duplicate keys are
removed before re-insertion at startup, main.c:2784-2796). -/
def hashmap_get (db : List (List Char × List Char)) (key : List Char) : Option (List Char) :=
  (db.find? (fun kv => decide (kv.1 = key))).map Prod.snd

/-- The custom word parser of `find_links` over one flattened span
(main.c:991-1051).  `p` is `str - line`, `current_word` the accumulated
word, `opening_paren` the non-nesting parenthesis flag.  Word boundaries
reset both; a word may not start with `(`, `)` or `|`; a `)` while the
flag is set completes the word (which includes both parentheses), looks
it up and emits a link whose rectangle spans the word's byte range times
the character width. -/
def find_links_scan (char_width line_advance line_height : Int)
    (db db_pwd : List (List Char × List Char)) (line_index : Nat) :
    List Char → Nat → List Char → Bool → List Link
  | [], _, _, _ => []
  | c :: rest, p, current_word, opening_paren =>
    if c = ' ' ∨ c = ',' ∨ c = '\t' ∨ c = '\n' ∨ c = '\r' then
      find_links_scan char_width line_advance line_height db db_pwd line_index rest (p + 1) [] false
    else if current_word.length = 0 ∧ (c = '(' ∨ c = ')' ∨ c = '|') then
      find_links_scan char_width line_advance line_height db db_pwd line_index rest (p + 1) [] false
    else
      let word := current_word ++ [c]
      if c = '(' then
        find_links_scan char_width line_advance line_height db db_pwd line_index rest (p + 1) word true
      else if c = ')' ∧ opening_paren then
        (match hashmap_get db word with
          | some man_file =>
            let x := ((p : Int) + 1 - (word.length : Int)) * char_width
            let y := (line_index : Int) * line_advance
            [{ document_rectangle :=
                 { x := x, y := y,
                   x2 := x + (word.length : Int) * char_width,
                   y2 := y + line_height },
               link := man_file,
               pwd := (hashmap_get db_pwd word).getD [],
               highlight := false }]
          | none => []) ++
        find_links_scan char_width line_advance line_height db db_pwd line_index rest (p + 1) [] false
      else
        find_links_scan char_width line_advance line_height db db_pwd line_index rest (p + 1) word opening_paren

/-- `find_links` (main.c:952-1057): for every line and every span of its
chain, flatten the span (the buffer position resets per span) and run the
word parser; links accumulate in scan order. -/
def find_links (char_width line_advance line_height : Int)
    (db db_pwd : List (List Char × List Char))
    (lines : List (List (List Char))) : List Link :=
  (lines.enum.map (fun p =>
    (p.2.map (fun s =>
      find_links_scan char_width line_advance line_height db db_pwd p.1
        (flatten_span s) 0 [] false)).flatten)).flatten

/-! ### Navigation stack (main.c:2982-3048) -/

/-- `enum DISPLAY_MODES` (main.c:65-68). -/
inductive DisplayMode where
  | d_manpage
  | d_search
deriving DecidableEq, Repr

/-- The navigation state: the `page_stack` stretchy buffer of manpage
slots (a freed slot is NULLed, not popped, main.c:2993-3000), the 1-based
`stack_pos` (index of the displayed page + 1, main.c:595) and the display
mode.  Documents are identified by `Nat` ids. -/
structure NavState where
  page_stack : List (Option Nat)
  stack_pos : Nat
  display_mode : DisplayMode
deriving DecidableEq, Repr

/-- The displayed page, `page = page_stack[stack_pos - 1]`. -/
def current_page (st : NavState) : Option Nat :=
  st.page_stack.getD (st.stack_pos - 1) none

/-- `open_new_page` (main.c:2982-3017), with the page load and the
working-directory change abstracted away: if slots at or beyond
`stack_pos` exist they are freed and NULLed, then the new page is placed
at `stack_pos` and `stack_pos` is incremented; otherwise the new page is
pushed.  The display mode switches from search to manpage. -/
def open_new_page (st : NavState) (new_page : Nat) : NavState :=
  let st' :=
    if st.stack_pos < st.page_stack.length then
      { st with
        page_stack :=
          ((st.page_stack.take st.stack_pos) ++
            (st.page_stack.drop st.stack_pos).map (fun _ => none)).set st.stack_pos (some new_page),
        stack_pos := st.stack_pos + 1 }
    else
      { st with page_stack := st.page_stack ++ [some new_page], stack_pos := st.stack_pos + 1 }
  if st'.display_mode = DisplayMode.d_search then
    { st' with display_mode := DisplayMode.d_manpage }
  else st'

/-- `page_back` (main.c:3019-3036): move left when `stack_pos > 1`,
otherwise fall back from the manpage view to the search view with
`stack_pos = 0`. -/
def page_back (st : NavState) : NavState :=
  if st.stack_pos > 1 then
    { st with stack_pos := st.stack_pos - 1 }
  else if st.display_mode = DisplayMode.d_manpage then
    { st with display_mode := DisplayMode.d_search, stack_pos := 0 }
  else st

/-- `page_forward` (main.c:3038-3048): move right only when the next slot
exists and holds a live (non-NULL) document. -/
def page_forward (st : NavState) : NavState :=
  if st.stack_pos < st.page_stack.length ∧ (st.page_stack.getD st.stack_pos none) ≠ none then
    { st with stack_pos := st.stack_pos + 1 }
  else st

/-! ### Find-next / find-previous ('n' / 'N' in `char_func`, main.c:2529-2552) -/

/-- The page-view state touched by the `'n'`/`'N'` handlers.  `search_num`
and `search_index` are C `int`s (the index can become negative).
`searches` is the raw 100-slot array indexed by the C `int`
`search_index`, modelled as a total function on `Int` so that
out-of-range accesses (`searches[-1]`, `searches[search_num]`, ...) read
whatever the function yields there. -/
structure PageNav where
  search_visible : Bool
  search_num : Int
  search_index : Int
  scroll_position : Int
deriving DecidableEq, Repr

/-- The `case 'n'` handler (main.c:2529-2540): increment the index, wrap
by subtracting `search_num` when `index ≥ search_num`, then scroll the
rectangle of slot `search_index` into view relative to the current scroll
position. -/
def find_next (doc_height window_height line_advance margin : Int)
    (searches : Int → Recti) (st : PageNav) : PageNav :=
  if st.search_visible then
    let i0 := st.search_index + 1
    let i := if i0 ≥ st.search_num then i0 - st.search_num else i0
    { st with
      search_index := i,
      scroll_position := scroll_in_view doc_height window_height line_advance
        (to_document_coordinates margin (searches i)) st.scroll_position }
  else st

/-- The `case 'N'` handler (main.c:2541-2552): decrement the index, wrap
by adding `search_num` when `index < 0`, then scroll slot `search_index`
into view. -/
def find_previous (doc_height window_height line_advance margin : Int)
    (searches : Int → Recti) (st : PageNav) : PageNav :=
  if st.search_visible then
    let i0 := st.search_index - 1
    let i := if i0 < 0 then i0 + st.search_num else i0
    { st with
      search_index := i,
      scroll_position := scroll_in_view doc_height window_height line_advance
        (to_document_coordinates margin (searches i)) st.scroll_position }
  else st

/-! ### Concrete inputs used by the claim evaluations -/

/-- Catalog for the link-tokenization scenario: `printf(3)` is present,
`malloc(3f)` is not. -/
def c6_db : List (List Char × List Char) :=
  [((("printf(3)").toList), (("/usr/share/man/man3/printf.3").toList))]

/-- The `manpage_database_pwd` side of the same catalog. -/
def c6_db_pwd : List (List Char × List Char) :=
  [((("printf(3)").toList), (("/usr/share/man/man3").toList))]

/-- The input line of the link-tokenization scenario. -/
def c6_line : List Char :=
  ("See printf(3) and also (not a link) malloc(3f).").toList

/-- A catalog key that equals a whole query. -/
def c1_key : List Char :=
  ("grep(1)").toList

/-- A navigation stack of depth 3 showing the most recent document
(1-based `stack_pos` 3 = 0-based position 2). -/
def c2_stack0 : NavState :=
  { page_stack := [some 1, some 2, some 3], stack_pos := 3,
    display_mode := DisplayMode.d_manpage }

/-- `back()` followed by `open(4)` from `c2_stack0`. -/
def c2_result : NavState :=
  open_new_page (page_back c2_stack0) 4

/-- A page whose search bar is visible with an empty match list. -/
def c3_state : PageNav :=
  { search_visible := true, search_num := 0, search_index := 0, scroll_position := 100 }

/-- A zero-initialized `searches` array. -/
def zero_searches : Int → Recti :=
  fun _ => { x := 0, y := 0, x2 := 0, y2 := 0 }

/-- 101 candidates with strictly decreasing goodness: enough to fill the
100-slot `matches` array and drop one. -/
def c4_cands : List (Nat × Int) :=
  (List.range 101).map (fun i => (i, -(i : Int)))

/-- The ranked array after inserting `c4_cands` in order. -/
def c4_fin : List (Nat × Int) :=
  c4_cands.foldl matches_insert []

/-! ## Theorems -/

/-- Helper: `clamp_scroll_position` always lands in
`[0, max 0 (doc_height - window_height)]`. -/
theorem clamp_scroll_position_mem (doc_height window_height v : Int) :
    0 ≤ clamp_scroll_position doc_height window_height v ∧
    clamp_scroll_position doc_height window_height v ≤ max 0 (doc_height - window_height) := by
  unfold clamp_scroll_position clamp
  split <;> split <;> omega

/-- C8: `set_scroll_position` stores a value clamped into
`[0, max 0 (content_height - viewport_height)]`; for a 100-line document
with line advance 14 and any (bounded, non-negative) document margin and a
400-pixel viewport, requesting scroll position 1000000000 stores exactly
`content_height - 400`. -/
theorem c8_set_scroll_position_clamps (margin : Int)
    (h0 : 0 ≤ margin) (h1 : margin ≤ 1000000) :
    (∀ doc_height window_height v : Int,
      0 ≤ set_scroll_position doc_height window_height v ∧
      set_scroll_position doc_height window_height v ≤ max 0 (doc_height - window_height)) ∧
    set_scroll_position (document_height 14 margin 100) 400 1000000000 =
      document_height 14 margin 100 - 400 := by
  constructor
  · intro doc_height window_height v
    exact clamp_scroll_position_mem doc_height window_height v
  · unfold set_scroll_position clamp_scroll_position clamp document_height
    split <;> split <;> omega

/-- Witness for C8 at the builtin-font margin 29: the stored position is
`1458 - 400`. -/
theorem c8_set_scroll_position_clamps_witness :
    0 ≤ (29 : Int) ∧ (29 : Int) ≤ 1000000 ∧
    set_scroll_position (document_height 14 29 100) 400 1000000000 =
      document_height 14 29 100 - 400 :=
  ⟨by decide, by decide, (c8_set_scroll_position_clamps 29 (by decide) (by decide)).2⟩

/-- C10: an empty query resets both engines — the page-local search
returns zero matches and a zero current index whatever the document, and
the global search returns an empty match array and zero selection and
view offset whatever the catalog (neither scans its input). -/
theorem c10_empty_query_resets (char_width line_advance line_height margin : Int)
    (start : Int) (lines : List (List (List Char))) (names : List (List Char)) :
    update_page_search char_width line_advance line_height margin [] start lines =
      { searches := [], search_num := 0, search_index := 0 } ∧
    update_search [] names =
      { matches_arr := [], results_view_offset := 0, results_selected_index := 0 } :=
  ⟨rfl, rfl⟩

/-- C2 counterexample: from a depth-3 stack at position 2, `back()` then
`open(X)` leaves the stack at depth 3, not depth 2 as claimed (slots 0 and
1 are retained; only the previously-current slot-2 document is
discarded). -/
theorem c2_depth_counterexample :
    c2_result.page_stack.length = 3 ∧ ¬ c2_result.page_stack.length = 2 := by
  decide

/-- C2 amended: `back()` then `open(X)` discards the previously-current
slot-2 document and leaves the stack at depth 3 — the two older documents
retained, `X` at the new top and current — and a subsequent `forward()` is
a no-op. -/
theorem c2_truncate_on_branch :
    c2_result = { page_stack := [some 1, some 2, some 4], stack_pos := 3,
                  display_mode := DisplayMode.d_manpage } ∧
    (some 3) ∉ c2_result.page_stack ∧
    current_page c2_result = some 4 ∧
    page_forward c2_result = c2_result := by
  decide

/-- C3: with an empty match list the find-next/find-previous handlers are
not no-ops: `'n'` moves `search_index` from 0 to 1 (the wrap subtracts
`search_num = 0`) and rewrites the scroll position through
`scroll_in_view` on a stale slot (here from 100 to 0 on a zeroed array),
and `'N'` moves `search_index` to -1 (reading `searches[-1]`).  For a
non-empty list the motion is circular as the claim states (last wraps to
first and first to last). -/
theorem c3_empty_list_not_noop :
    (find_next 1458 400 14 29 zero_searches c3_state).search_index = 1 ∧
    (find_next 1458 400 14 29 zero_searches c3_state).scroll_position = 0 ∧
    c3_state.search_index = 0 ∧ c3_state.scroll_position = 100 ∧
    (find_previous 1458 400 14 29 zero_searches c3_state).search_index = -1 ∧
    (find_next 1458 400 14 29 zero_searches
      { search_visible := true, search_num := 3, search_index := 2,
        scroll_position := 100 }).search_index = 0 ∧
    (find_previous 1458 400 14 29 zero_searches
      { search_visible := true, search_num := 3, search_index := 0,
        scroll_position := 100 }).search_index = 2 := by
  decide

/-- C1: a query that occurs in a catalog key only at the final start
position (here the query equal to the whole key) is missed: `find_string`
scans `i < text_len - search_len` (main.c:1542), never testing that
position, so no goodness score is computed and the key is not offered for
insertion; at earlier positions the score formula
`-position * 100 - (key_length - query_length)` is computed as claimed
(query `"gre"` scores `-0 * 100 - (7 - 3) = -4`). -/
theorem c1_suffix_occurrence_missed :
    (c1_key.drop 0).take (("grep(1)").toList).length = ("grep(1)").toList ∧
    (update_search (("grep(1)").toList) [c1_key]).matches_arr = [] ∧
    (update_search (("gre").toList) [c1_key]).matches_arr = [(0, -4)] := by
  decide

/-- C7: the page-local engine implements the claimed case policy — the
lowercase query `"foo"` matches both `"Foo"` and `"foo"`, the uppercase
query `"Foo"` matches only `"Foo"` — but in the global engine the same
lowercase query matches neither catalog key `"Foo"` nor `"foo"`: the keys
(after lowercasing) contain the query only at the final start position,
which `find_string`'s strict loop bound never tests. -/
theorem c7_case_policy :
    (update_page_search 7 14 14 29 (("foo").toList) 0 [[("Foo").toList]]).search_num = 1 ∧
    (update_page_search 7 14 14 29 (("foo").toList) 0 [[("foo").toList]]).search_num = 1 ∧
    (update_page_search 7 14 14 29 (("Foo").toList) 0 [[("foo").toList]]).search_num = 0 ∧
    (update_page_search 7 14 14 29 (("Foo").toList) 0 [[("Foo").toList]]).search_num = 1 ∧
    (update_search (("foo").toList) [("Foo").toList]).matches_arr = [] ∧
    (update_search (("foo").toList) [("foo").toList]).matches_arr = [] := by
  decide

/-- C5 counterexample: when the preferred scroll position is itself out of
range and the rectangle is already visible from it, `scroll_in_view`
stores the preferred position unclamped — here 2000 against a maximum of
`max 0 (1400 - 400) = 1000`. -/
theorem c5_keep_branch_unclamped :
    scroll_in_view 1400 400 14 { x := 0, y := 2042, x2 := 0, y2 := 2042 } 2000 = 2000 ∧
    ¬ (2000 : Int) ≤ max 0 ((1400 : Int) - 400) := by
  decide

/-- C5 amended: the scroll-up and scroll-down branches always clamp, and
whenever the preferred scroll position already lies in
`[0, max 0 (content_height - viewport_height)]` the result of
`scroll_in_view` lies in that interval in all three branches. -/
theorem c5_scroll_in_view_range (doc_height window_height line_advance : Int)
    (r : Recti) (prefered : Int)
    (h0 : 0 ≤ prefered) (h1 : prefered ≤ max 0 (doc_height - window_height)) :
    0 ≤ scroll_in_view doc_height window_height line_advance r prefered ∧
    scroll_in_view doc_height window_height line_advance r prefered ≤
      max 0 (doc_height - window_height) := by
  simp only [scroll_in_view]
  split
  · exact clamp_scroll_position_mem _ _ _
  · split
    · exact clamp_scroll_position_mem _ _ _
    · exact ⟨h0, h1⟩

/-- Witness for C5 at an in-range preferred position. -/
theorem c5_scroll_in_view_range_witness :
    0 ≤ (500 : Int) ∧ (500 : Int) ≤ max 0 ((1400 : Int) - 400) ∧
    (0 ≤ scroll_in_view 1400 400 14 { x := 0, y := 600, x2 := 70, y2 := 614 } 500 ∧
     scroll_in_view 1400 400 14 { x := 0, y := 600, x2 := 70, y2 := 614 } 500 ≤
       max 0 ((1400 : Int) - 400)) :=
  ⟨by decide, by decide,
    c5_scroll_in_view_range 1400 400 14 { x := 0, y := 600, x2 := 70, y2 := 614 } 500
      (by decide) (by decide)⟩

set_option maxRecDepth 8000 in
/-- C6: on the scenario line, with `printf(3)` in the catalog and
`malloc(3f)` absent, exactly one link is produced; its rectangle starts at
the word's byte offset 4 times the character width and spans the word's 9
bytes, and it resolves to `printf(3)`'s catalog entry.  (`(not` is
rejected because a word may not start with `(`; `link)` completes no
candidate because its `)` arrives with the paren flag unset.) -/
theorem c6_link_tokenization (char_width line_advance line_height : Int) :
    find_links char_width line_advance line_height c6_db c6_db_pwd [[c6_line]] =
      [{ document_rectangle :=
           { x := 4 * char_width, y := 0 * line_advance,
             x2 := 4 * char_width + 9 * char_width, y2 := 0 * line_advance + line_height },
         link := ("/usr/share/man/man3/printf.3").toList,
         pwd := ("/usr/share/man/man3").toList,
         highlight := false }] := by
  rfl

/-- Helper: one `update_page_search` step keeps the index bookkeeping
invariant — while `search_index_set` is unset the index stays 0, and once
it is set some stored rectangle satisfies the start condition. -/
theorem page_search_step_invariant (cw la lh margin : Int) (tl : Nat) (start : Int)
    (st : PageScanState) (m : Nat × Nat)
    (h1 : st.index_set = false → st.search_index = 0)
    (h2 : st.index_set = true → ∃ r ∈ st.searches, start ≤ r.y + margin) :
    ((page_search_step cw la lh margin tl start st m).index_set = false →
      (page_search_step cw la lh margin tl start st m).search_index = 0) ∧
    ((page_search_step cw la lh margin tl start st m).index_set = true →
      ∃ r ∈ (page_search_step cw la lh margin tl start st m).searches,
        start ≤ r.y + margin) := by
  unfold page_search_step
  by_cases hstop : st.stopped
  · simpa [hstop] using ⟨h1, h2⟩
  · by_cases hc : start ≤ (m.1 : Int) * la + margin
    · refine ⟨?_, ?_⟩
      · intro hfin
        simp [hstop, hc] at hfin
      · intro _
        refine ⟨{ x := (m.2 : Int) * cw, y := (m.1 : Int) * la,
                  x2 := (m.2 : Int) * cw + (tl : Int) * cw,
                  y2 := (m.1 : Int) * la + lh }, ?_, hc⟩
        simp [hstop]
    · by_cases hset : st.index_set
      · refine ⟨?_, ?_⟩
        · intro hfin
          simp [hstop, hc, hset] at hfin
        · intro _
          obtain ⟨r, hr, hge⟩ := h2 hset
          refine ⟨r, ?_, hge⟩
          simp [hstop]
          exact Or.inl hr
      · refine ⟨?_, ?_⟩
        · intro _
          have hz := h1 (by simpa using hset)
          simp [hstop, hc, hset, hz]
        · intro hfin
          simp [hstop, hc, hset] at hfin


/-- Helper: the index bookkeeping invariant carried through the whole
`update_page_search` fold. -/
theorem page_scan_fold_invariant (cw la lh margin : Int) (tl : Nat) (start : Int)
    (ms : List (Nat × Nat)) :
    ∀ st : PageScanState,
      (st.index_set = false → st.search_index = 0) →
      (st.index_set = true → ∃ r ∈ st.searches, start ≤ r.y + margin) →
      (((ms.foldl (page_search_step cw la lh margin tl start) st).index_set = false →
          (ms.foldl (page_search_step cw la lh margin tl start) st).search_index = 0) ∧
       ((ms.foldl (page_search_step cw la lh margin tl start) st).index_set = true →
          ∃ r ∈ (ms.foldl (page_search_step cw la lh margin tl start) st).searches,
            start ≤ r.y + margin)) := by
  induction ms with
  | nil =>
    intro st h1 h2
    exact ⟨h1, h2⟩
  | cons m rest ih =>
    intro st h1 h2
    have step := page_search_step_invariant cw la lh margin tl start st m h1 h2
    simpa using ih (page_search_step cw la lh margin tl start st m) step.1 step.2

/-- C9: when a page-search recomputation finds at least one match but no
match rectangle's top edge, offset by the document margin, lies at or
below the saved search-start scroll position, the current-match index
falls back to 0 (the first match of the document). -/
theorem c9_search_index_defaults_to_first (cw la lh margin : Int)
    (term : List Char) (start : Int) (lines : List (List (List Char)))
    (_hnum : 0 < (update_page_search cw la lh margin term start lines).search_num)
    (habove : ∀ r ∈ (update_page_search cw la lh margin term start lines).searches,
        r.y + margin < start) :
    (update_page_search cw la lh margin term start lines).search_index = 0 := by
  by_cases hlen : term.length = 0
  · simp [update_page_search, hlen]
  · simp only [update_page_search, hlen, ite_false, if_neg] at habove ⊢
    have inv := page_scan_fold_invariant cw la lh margin term.length start
      (page_all_matches (!contains_uppercase term) term lines)
      { searches := [], search_num := 0, search_index := 0, index_set := false, stopped := false }
      (fun _ => rfl) (by simp)
    by_cases hset :
      ((page_all_matches (!contains_uppercase term) term lines).foldl
        (page_search_step cw la lh margin term.length start)
        { searches := [], search_num := 0, search_index := 0,
          index_set := false, stopped := false }).index_set
    · obtain ⟨r, hr, hge⟩ := inv.2 hset
      have := habove r hr
      omega
    · exact inv.1 (by simpa using hset)

/-- Witness for C9: a one-line document whose single match sits above the
saved start position. -/
theorem c9_search_index_defaults_to_first_witness :
    0 < (update_page_search 7 14 14 0 (("a").toList) 1000 [[("ba").toList]]).search_num ∧
    (update_page_search 7 14 14 0 (("a").toList) 1000 [[("ba").toList]]).search_index = 0 :=
  ⟨by decide,
    c9_search_index_defaults_to_first 7 14 14 0 (("a").toList) 1000 [[("ba").toList]]
      (by decide) (by decide)⟩

/-- Helper: exit value of the binary-search loop.  With enough fuel, a
positive comparison at `s` and a non-positive one at `e`, the loop lands
on an index in `(s, e]` whose comparison is non-positive while its
predecessor's is positive. -/
theorem bs_loop_exit (cmp : Nat → Int) :
    ∀ fuel s e : Nat, e - s ≤ fuel → s < e → 0 < cmp s → cmp e ≤ 0 →
      s < bs_loop cmp fuel s e ∧ bs_loop cmp fuel s e ≤ e ∧
      cmp (bs_loop cmp fuel s e) ≤ 0 ∧ 0 < cmp (bs_loop cmp fuel s e - 1) := by
  intro fuel
  induction fuel with
  | zero =>
    intro s e hf hse _ _
    omega
  | succ fuel ih =>
    intro s e hf hse hs he
    by_cases hgt : e > s + 1
    · simp only [bs_loop, if_pos hgt]
      by_cases hc : cmp ((e + s) / 2) ≤ 0
      · simp only [if_pos hc]
        have h := ih s ((e + s) / 2) (by omega) (by omega) hs hc
        exact ⟨h.1, by omega, h.2.2.1, h.2.2.2⟩
      · simp only [if_neg hc]
        push_neg at hc
        have h := ih ((e + s) / 2) e (by omega) (by omega) hc he
        exact ⟨by omega, h.2.1, h.2.2⟩
    · simp only [bs_loop, if_neg hgt]
      have he1 : e - 1 = s := by omega
      exact ⟨by omega, Nat.le_refl _, he, by rw [he1]; exact hs⟩

/-- Helper: `binary_search_first` on a non-increasing comparison function
returns the first index with a non-positive comparison (or `nmemb` when
none exists): every index below the result compares positive, every index
at or beyond it compares non-positive. -/
theorem binary_search_first_split (cmp : Nat → Int) (n : Nat)
    (mono : ∀ j k : Nat, j ≤ k → k < n → cmp k ≤ cmp j) :
    binary_search_first cmp n ≤ n ∧
    (∀ j : Nat, j < binary_search_first cmp n → 0 < cmp j) ∧
    (∀ j : Nat, binary_search_first cmp n ≤ j → j < n → cmp j ≤ 0) := by
  by_cases hn : n = 0
  · subst hn
    have hb : binary_search_first cmp 0 = 0 := rfl
    rw [hb]
    refine ⟨Nat.le_refl _, ?_, ?_⟩
    · intro j hj
      omega
    · intro j hj1 hj2
      omega
  · have hb : binary_search_first cmp n =
        if cmp 0 ≤ 0 then 0 else if cmp (n - 1) > 0 then n else bs_loop cmp n 0 (n - 1) := by
      simp only [binary_search_first, if_neg hn]
    rw [hb]
    by_cases hcs : cmp 0 ≤ 0
    · rw [if_pos hcs]
      refine ⟨Nat.zero_le _, ?_, ?_⟩
      · intro j hj
        omega
      · intro j _ hj
        exact le_trans (mono 0 j (Nat.zero_le _) hj) hcs
    · rw [if_neg hcs]
      push_neg at hcs
      by_cases hce : cmp (n - 1) > 0
      · rw [if_pos hce]
        refine ⟨Nat.le_refl _, ?_, ?_⟩
        · intro j hj
          exact lt_of_lt_of_le hce (mono j (n - 1) (by omega) (by omega))
        · intro j hj1 hj2
          omega
      · rw [if_neg hce]
        push_neg at hce
        have hn2 : 2 ≤ n := by
          by_contra hlt
          have hn1 : n = 1 := by omega
          rw [hn1] at hce
          simp at hce
          omega
        have h := bs_loop_exit cmp n 0 (n - 1) (by omega) (by omega) hcs hce
        refine ⟨by omega, ?_, ?_⟩
        · intro j hj
          exact lt_of_lt_of_le h.2.2.2
            (mono j (bs_loop cmp n 0 (n - 1) - 1) (by omega) (by omega))
        · intro j hj1 hj2
          exact le_trans (mono (bs_loop cmp n 0 (n - 1)) j hj1 hj2) h.2.2.1

/-- Helper: everything one ranked insertion step guarantees: sortedness
and the capacity bound are preserved, new members come from the old array
or the candidate, an old member is either kept or (at capacity) bounds
every kept score from below, the candidate is either kept or (at
capacity) bounded by every kept score, and a lower bound on all old
scores carries over to the new array at capacity. -/
theorem matches_insert_step (ms : List (Nat × Int)) (c : Nat × Int)
    (hs : List.Pairwise (fun a b : Nat × Int => b.2 ≤ a.2) ms) (hl : ms.length ≤ 100) :
    List.Pairwise (fun a b : Nat × Int => b.2 ≤ a.2) (matches_insert ms c) ∧
    (matches_insert ms c).length ≤ 100 ∧
    (∀ x ∈ matches_insert ms c, x ∈ ms ∨ x = c) ∧
    (∀ x ∈ ms, x ∈ matches_insert ms c ∨
      ((matches_insert ms c).length = 100 ∧ ∀ m ∈ matches_insert ms c, x.2 ≤ m.2)) ∧
    (c ∈ matches_insert ms c ∨
      ((matches_insert ms c).length = 100 ∧ ∀ m ∈ matches_insert ms c, c.2 ≤ m.2)) ∧
    (∀ x : Nat × Int, (∀ m ∈ ms, x.2 ≤ m.2) → ms.length = 100 →
      ((matches_insert ms c).length = 100 ∧ ∀ m ∈ matches_insert ms c, x.2 ≤ m.2)) := by
  have hpg := List.pairwise_iff_getElem.mp hs
  have mono : ∀ j k : Nat, j ≤ k → k < ms.length →
      (fun j => compar_match_rev c (ms.getD j (0, 0))) k ≤
      (fun j => compar_match_rev c (ms.getD j (0, 0))) j := by
    intro j k hjk hk
    rcases Nat.eq_or_lt_of_le hjk with rfl | hlt
    · exact le_refl _
    · have h := hpg j k (by omega) hk hlt
      simp only [compar_match_rev]
      rw [List.getD_eq_getElem ms (0, 0) (by omega : j < ms.length),
        List.getD_eq_getElem ms (0, 0) hk]
      omega
  obtain ⟨hile, hpos, hnonpos⟩ :=
    binary_search_first_split (fun j => compar_match_rev c (ms.getD j (0, 0))) ms.length mono
  set i := binary_search_first (fun j => compar_match_rev c (ms.getD j (0, 0))) ms.length
    with hidef
  have hpos2 : ∀ j : Nat, (hj : j < ms.length) → j < i → c.2 < ms[j].2 := by
    intro j hj hji
    have h := hpos j hji
    simp only [compar_match_rev] at h
    rw [List.getD_eq_getElem ms (0, 0) hj] at h
    omega
  have hnonpos2 : ∀ j : Nat, (hj : j < ms.length) → i ≤ j → ms[j].2 ≤ c.2 := by
    intro j hj hij
    have h := hnonpos j hij hj
    simp only [compar_match_rev] at h
    rw [List.getD_eq_getElem ms (0, 0) hj] at h
    omega
  have hres : matches_insert ms c =
      if i < 100 then (ms.take i ++ c :: ms.drop i).take 100 else ms := by
    simp only [matches_insert, insert_array, ← hidef]
    by_cases h : i < 100
    · rw [if_pos h, if_neg (by omega : ¬ i ≥ 100), if_pos h]
    · rw [if_neg h, if_neg h]
  rw [hres]
  by_cases hidx : i < 100
  · rw [if_pos hidx]
    have htl : (ms.take i).length = i := by
      rw [List.length_take]
      omega
    have hLlen : (ms.take i ++ c :: ms.drop i).length = ms.length + 1 := by
      simp [List.length_append, List.length_take, List.length_drop]
      omega
    have hmsL : ∀ x ∈ ms, x ∈ ms.take i ++ c :: ms.drop i := by
      intro x hx
      have hx2 : x ∈ ms.take i ++ ms.drop i := by
        rw [List.take_append_drop]
        exact hx
      rcases List.mem_append.mp hx2 with h | h
      · exact List.mem_append.mpr (Or.inl h)
      · exact List.mem_append.mpr (Or.inr (List.mem_cons_of_mem _ h))
    have hLms : ∀ x ∈ ms.take i ++ c :: ms.drop i, x ∈ ms ∨ x = c := by
      intro x hx
      rcases List.mem_append.mp hx with h | h
      · exact Or.inl (List.Sublist.mem h (List.take_sublist i ms))
      · rcases List.mem_cons.mp h with h | h
        · exact Or.inr h
        · exact Or.inl (List.Sublist.mem h (List.drop_sublist i ms))
    have hLp : List.Pairwise (fun a b : Nat × Int => b.2 ≤ a.2) (ms.take i ++ c :: ms.drop i) := by
      rw [List.pairwise_append]
      refine ⟨List.Pairwise.sublist (List.take_sublist i ms) hs, ?_, ?_⟩
      · rw [List.pairwise_cons]
        refine ⟨?_, List.Pairwise.sublist (List.drop_sublist i ms) hs⟩
        intro b hb
        obtain ⟨k, hk, hget⟩ := List.getElem_of_mem hb
        have hklen : i + k < ms.length := by
          rw [List.length_drop] at hk
          omega
        rw [List.getElem_drop] at hget
        have h := hnonpos2 (i + k) hklen (by omega)
        rw [hget] at h
        exact h
      · intro a ha b hb
        obtain ⟨j, hj, hgetj⟩ := List.mem_take_iff_getElem.mp ha
        rw [lt_min_iff] at hj
        rcases List.mem_cons.mp hb with rfl | hbd
        · have h := hpos2 j hj.2 hj.1
          rw [hgetj] at h
          exact le_of_lt h
        · obtain ⟨k, hk, hgetk⟩ := List.getElem_of_mem hbd
          have hklen : i + k < ms.length := by
            rw [List.length_drop] at hk
            omega
          rw [List.getElem_drop] at hgetk
          have h := hpg j (i + k) hj.2 hklen (by omega)
          rw [hgetj, hgetk] at h
          exact h
    have hLpg := List.pairwise_iff_getElem.mp hLp
    have hmem_take : ∀ x ∈ (ms.take i ++ c :: ms.drop i).take 100, x ∈ ms ∨ x = c := by
      intro x hx
      exact hLms x (List.Sublist.mem hx (List.take_sublist _ _))
    refine ⟨?_, ?_, hmem_take, ?_, ?_, ?_⟩
    · exact List.Pairwise.sublist (List.take_sublist _ _) hLp
    · rw [List.length_take]
      omega
    · -- an old member is kept or bounds everything kept
      intro x hxms
      by_cases hx : x ∈ (ms.take i ++ c :: ms.drop i).take 100
      · exact Or.inl hx
      · refine Or.inr ?_
        have hms100 : ms.length = 100 := by
          by_contra hne
          have hlen2 : (ms.take i ++ c :: ms.drop i).length ≤ 100 := by
            rw [hLlen]
            omega
          rw [List.take_of_length_le hlen2] at hx
          exact hx (hmsL x hxms)
        have hlen100 : ((ms.take i ++ c :: ms.drop i).take 100).length = 100 := by
          rw [List.length_take, hLlen, hms100]
          omega
        refine ⟨hlen100, ?_⟩
        obtain ⟨idx, hidxlt, hgetx⟩ := List.getElem_of_mem (hmsL x hxms)
        have hidx100 : ¬ idx < 100 := by
          intro hlt
          exact hx (List.mem_take_iff_getElem.mpr ⟨idx, by omega, hgetx⟩)
        have hidxeq : idx = 100 := by
          rw [hLlen, hms100] at hidxlt
          omega
        intro m hm
        obtain ⟨jm, hjm, hgetm⟩ := List.mem_take_iff_getElem.mp hm
        rw [lt_min_iff] at hjm
        have h := hLpg jm idx hjm.2 hidxlt (by omega)
        rw [hgetx, hgetm] at h
        exact h
    · -- the candidate is kept (it sits at index i < 100)
      refine Or.inl ?_
      have hci : (ms.take i ++ c :: ms.drop i).getD i (0, 0) = c := by
        rw [List.getD_eq_getElem _ (0, 0) (by omega : i < (ms.take i ++ c :: ms.drop i).length)]
        rw [List.getElem_append_right (by omega : (ms.take i).length ≤ i)]
        simp [htl]
      apply List.mem_take_iff_getElem.mpr
      refine ⟨i, by omega, ?_⟩
      rw [← List.getD_eq_getElem _ (0, 0)]
      exact hci
    · -- a lower bound on the old scores carries over at capacity
      intro x hxb hms100
      have hlen100 : ((ms.take i ++ c :: ms.drop i).take 100).length = 100 := by
        rw [List.length_take, hLlen, hms100]
        omega
      refine ⟨hlen100, ?_⟩
      intro m hm
      rcases hmem_take m hm with hmms | rfl
      · exact hxb m hmms
      · have h99 : ms[99].2 ≤ m.2 := hnonpos2 99 (by omega) (by omega)
        exact le_trans (hxb ms[99] (List.getElem_mem (by omega))) h99
  · rw [if_neg hidx]
    have hieq : ms.length = 100 := by omega
    refine ⟨hs, hl, fun x hx => Or.inl hx, fun x hx => Or.inl hx, ?_, ?_⟩
    · refine Or.inr ⟨hieq, ?_⟩
      intro m hm
      obtain ⟨j, hj, hget⟩ := List.getElem_of_mem hm
      have h := hpos2 j hj (by omega)
      rw [hget] at h
      exact le_of_lt h
    · intro x hxb hms100
      exact ⟨hms100, hxb⟩

/-- Helper: the ranked-array invariant carried through a whole candidate
fold: the array stays sorted and bounded, old members are kept or bound
the kept scores at capacity, lower bounds carry over, and every candidate
processed so far is either in the array or bounded by it at capacity. -/
theorem matches_fold_invariant (cands : List (Nat × Int)) :
    ∀ ms0 : List (Nat × Int),
      List.Pairwise (fun a b : Nat × Int => b.2 ≤ a.2) ms0 → ms0.length ≤ 100 →
      (List.Pairwise (fun a b : Nat × Int => b.2 ≤ a.2) (cands.foldl matches_insert ms0) ∧
       (cands.foldl matches_insert ms0).length ≤ 100 ∧
       (∀ x ∈ ms0, x ∈ cands.foldl matches_insert ms0 ∨
         ((cands.foldl matches_insert ms0).length = 100 ∧
           ∀ m ∈ cands.foldl matches_insert ms0, x.2 ≤ m.2)) ∧
       (∀ x : Nat × Int, (∀ m ∈ ms0, x.2 ≤ m.2) → ms0.length = 100 →
         ((cands.foldl matches_insert ms0).length = 100 ∧
           ∀ m ∈ cands.foldl matches_insert ms0, x.2 ≤ m.2)) ∧
       (∀ c ∈ cands, c ∈ cands.foldl matches_insert ms0 ∨
         ((cands.foldl matches_insert ms0).length = 100 ∧
           ∀ m ∈ cands.foldl matches_insert ms0, c.2 ≤ m.2))) := by
  induction cands with
  | nil =>
    intro ms0 h1 h2
    exact ⟨h1, h2, fun x hx => Or.inl hx, fun x hb hf => ⟨hf, hb⟩,
      fun c hc => absurd hc (List.not_mem_nil c)⟩
  | cons c0 rest ih =>
    intro ms0 h1 h2
    have step := matches_insert_step ms0 c0 h1 h2
    have ihr := ih (matches_insert ms0 c0) step.1 step.2.1
    simp only [List.foldl_cons]
    refine ⟨ihr.1, ihr.2.1, ?_, ?_, ?_⟩
    · intro x hx
      rcases step.2.2.2.1 x hx with hin | ⟨hfull, hbound⟩
      · exact ihr.2.2.1 x hin
      · exact Or.inr (ihr.2.2.2.1 x hbound hfull)
    · intro x hb hf
      obtain ⟨hfull, hbound⟩ := step.2.2.2.2.2 x hb hf
      exact ihr.2.2.2.1 x hbound hfull
    · intro c hc
      rcases List.mem_cons.mp hc with rfl | hcr
      · rcases step.2.2.2.2.1 with hin | ⟨hfull, hbound⟩
        · exact ihr.2.2.1 c hin
        · exact Or.inr (ihr.2.2.2.1 c hbound hfull)
      · exact ihr.2.2.2.2 c hcr

/-- C4: after any sequence of candidate insertions into the ranked
`matches` array (starting empty), the stored goodness scores are
non-increasing from the first to the last kept entry, and once the array
is at capacity (100 entries) every processed candidate that is not in the
array has a score no greater than every stored score — in particular no
greater than the minimum. -/
theorem c4_ranked_array_invariant (cands : List (Nat × Int)) :
    List.Pairwise (fun a b : Nat × Int => b.2 ≤ a.2) (cands.foldl matches_insert []) ∧
    ((cands.foldl matches_insert []).length = 100 →
      ∀ c ∈ cands, c ∉ cands.foldl matches_insert [] →
        ∀ m ∈ cands.foldl matches_insert [], c.2 ≤ m.2) := by
  have h := matches_fold_invariant cands [] List.Pairwise.nil (by simp)
  refine ⟨h.1, ?_⟩
  intro _ c hc hnot
  rcases h.2.2.2.2 c hc with hin | ⟨_, hbound⟩
  · exact absurd hin hnot
  · exact hbound

set_option maxRecDepth 200000 in
/-- Witness for C4: 101 candidates with strictly decreasing scores fill
the array; the dropped 101st candidate's score `-100` is below the score
of the kept top entry. -/
theorem c4_ranked_array_invariant_witness :
    c4_fin.length = 100 ∧ (-100 : Int) ≤ ((0 : Nat), (0 : Int)).2 :=
  ⟨by decide,
    (c4_ranked_array_invariant c4_cands).2 (by decide) (100, -100) (by decide) (by decide)
      ((0 : Nat), (0 : Int)) (by decide)⟩

end Mangl
